import Mathlib

/-!
Verification of the BIMcloud backup orchestration script (`main.py` together
with the thin API clients `src/bimcloud.py` and `src/drive.py`).

The embedding models:
* timestamps and sizes as rationals (Python floats/server times);
* the external services (BIMcloud manager, Google Drive) as an `Env` record of
  response functions: each field is the typed response of one client query,
  time-varying queries additionally take the elapsed poll time;
* Python exceptions that escape `BackupManager.backup` as an `Except`-style
  `crash` field (an uncaught exception aborts the orchestrator loop);
* the mutable run report as explicit state threaded through the loop.

The size-to-timeout estimator computes with float exponentiation and is
modelled separately over the reals; the workflow code treats the resulting
deadline as an opaque number, which the `Env` supplies via `timeout_of`.
-/

/-- Outcome record of `BackupManager.run_with_timeout`: the returned value,
the elapsed times at which the probe was invoked (in order), the number of
sleeps performed, and the number of `report['errors'] += 1` executions. -/
structure PollResult (α : Type) where
  result : Option α
  probes : List ℚ
  sleeps : ℕ
  errors : ℕ
deriving DecidableEq

/-- Resource type tag (`resource['type']`). -/
inductive ResourceType where
  | project
  | library
deriving DecidableEq

def typeStr : ResourceType → String
  | .project => "project"
  | .library => "library"

/-- A BIMcloud resource as read by `main.py` (fields `id`, `type`, `name`,
`$size`, `$modifiedDate`, `$uploadedTime`). -/
structure Resource where
  id : String
  rtype : ResourceType
  name : String
  size : ℚ
  modifiedDate : ℚ
  uploadedTime : ℚ
deriving DecidableEq

/-- A backup record (fields `id`, `$time`, `$statusId`, `$fileSize`).  The
format tag used in library queries is absorbed into the `Env` query that
filters on it. -/
structure Backup where
  id : String
  time : ℚ
  statusId : String
  fileSize : ℚ
deriving DecidableEq

instance : Inhabited Backup := ⟨⟨"", 0, "", 0⟩⟩

/-- A server-side job (fields `id`, `status`, `properties` as name/value
pairs; the progress counters are only logged and are omitted). -/
structure Job where
  id : String
  status : String
  properties : List (String × String)
deriving DecidableEq

/-- Response of `create_resource_backup`: a dict that may or may not carry
an `id` entry (`response.get('id')`). -/
structure CreateResp where
  id : Option String
deriving DecidableEq

/-- A Google Drive file as returned by `get_folder_resources`. -/
structure DriveFile where
  id : String
  name : String
deriving DecidableEq

/-- Observable side-effecting calls issued by the workflows, recorded in
order for the temporal claims. -/
inductive Effect where
  | deleteSchedule (sid : String)
  | deleteBackup (rid bid : String)
  | createBackup (rid : String)
  | insertSchedule (rid : String)
  | transferred (rid : String)
deriving DecidableEq

/-- Python exceptions that can escape `BackupManager.backup`. -/
inductive PyErr where
  | typeError
deriving DecidableEq

/-- Responses of the external services.  Each field models the typed result
of one client call; polled queries take the elapsed runtime as an extra
argument, `now` abstracts the wall clock at workflow start. -/
structure Env where
  now : ℚ
  timeout_of : ℚ → ℚ
  resource_backups : String → List Backup
  backup_schedules : String → List String
  create_backup_response : String → Option CreateResp
  jobs : String → ℚ → List Job
  project_backups_since : Option String → ℚ → List Backup
  library_backups_at : String → ℚ → ℚ → List Backup
  library_backups_since : String → ℚ → List Backup
  download_ok : String → String → Bool
  drive_files : List DriveFile
  version : String
  upload_at : ℚ → Option String

/-- The loop of `run_with_timeout` strictly decreases this measure when the
delay is positive. -/
lemma poll_measure_decreases {timeout delay elapsed : ℚ} (hd : 0 < delay)
    (h : elapsed < timeout) :
    (⌈(timeout - (elapsed + delay)) / delay⌉).toNat <
      (⌈(timeout - elapsed) / delay⌉).toNat := by
  have h1 : (0 : ℤ) < ⌈(timeout - elapsed) / delay⌉ :=
    Int.ceil_pos.mpr (div_pos (by linarith) hd)
  have h2 : ⌈(timeout - (elapsed + delay)) / delay⌉ =
      ⌈(timeout - elapsed) / delay⌉ - 1 := by
    rw [show timeout - (elapsed + delay) = timeout - elapsed - delay by ring,
      sub_div, div_self (ne_of_gt hd), Int.ceil_sub_one]
  rw [h2]
  omega

/-- `BackupManager.run_with_timeout` (main.py:110-133), unrolled from an
arbitrary elapsed time: while `elapsed < timeout`, invoke the probe with the
current elapsed runtime; a truthy result is returned at once, a falsy one is
followed by one sleep of `delay`; when the deadline is reached the driver
logs, increments the error counter once and returns `None`.  The probe is
modelled as instantaneous, so the elapsed clock advances by `delay` per
iteration. -/
def run_with_timeout_from {α : Type} (fn : ℚ → Option α) (timeout delay : ℚ)
    (hd : 0 < delay) (elapsed : ℚ) : PollResult α :=
  if h : elapsed < timeout then
    match fn elapsed with
    | some r => ⟨some r, [elapsed], 0, 0⟩
    | none =>
      let rest := run_with_timeout_from fn timeout delay hd (elapsed + delay)
      ⟨rest.result, elapsed :: rest.probes, rest.sleeps + 1, rest.errors⟩
  else
    ⟨none, [], 0, 1⟩
termination_by (⌈(timeout - elapsed) / delay⌉).toNat
decreasing_by exact poll_measure_decreases hd h

/-- `run_with_timeout` as called by the workflows (elapsed clock starts at 0). -/
def run_with_timeout {α : Type} (fn : ℚ → Option α) (timeout delay : ℚ)
    (hd : 0 < delay) : PollResult α :=
  run_with_timeout_from fn timeout delay hd 0

lemma run_from_stop {α : Type} (fn : ℚ → Option α) (timeout delay : ℚ)
    (hd : 0 < delay) (elapsed : ℚ) (h : ¬ elapsed < timeout) :
    run_with_timeout_from fn timeout delay hd elapsed = ⟨none, [], 0, 1⟩ := by
  rw [run_with_timeout_from]
  simp [h]

lemma run_from_hit {α : Type} (fn : ℚ → Option α) (timeout delay : ℚ)
    (hd : 0 < delay) (elapsed : ℚ) (r : α) (h : elapsed < timeout)
    (hp : fn elapsed = some r) :
    run_with_timeout_from fn timeout delay hd elapsed =
      ⟨some r, [elapsed], 0, 0⟩ := by
  rw [run_with_timeout_from]
  simp [h, hp]

lemma run_from_miss {α : Type} (fn : ℚ → Option α) (timeout delay : ℚ)
    (hd : 0 < delay) (elapsed : ℚ) (h : elapsed < timeout)
    (hp : fn elapsed = none) :
    run_with_timeout_from fn timeout delay hd elapsed =
      ⟨(run_with_timeout_from fn timeout delay hd (elapsed + delay)).result,
        elapsed :: (run_with_timeout_from fn timeout delay hd (elapsed + delay)).probes,
        (run_with_timeout_from fn timeout delay hd (elapsed + delay)).sleeps + 1,
        (run_with_timeout_from fn timeout delay hd (elapsed + delay)).errors⟩ := by
  rw [run_with_timeout_from]
  simp [h, hp]

/-- Every probe invocation happens strictly before the deadline. -/
lemma run_from_probes_lt {α : Type} (fn : ℚ → Option α) (timeout delay : ℚ)
    (hd : 0 < delay) :
    ∀ (n : ℕ) (elapsed : ℚ), (⌈(timeout - elapsed) / delay⌉).toNat ≤ n →
      ∀ t ∈ (run_with_timeout_from fn timeout delay hd elapsed).probes,
        t < timeout := by
  intro n
  induction n with
  | zero =>
    intro elapsed hm t ht
    have hstop : ¬ elapsed < timeout := by
      intro hlt
      have := Int.ceil_pos.mpr (div_pos (show (0:ℚ) < timeout - elapsed by linarith) hd)
      omega
    rw [run_from_stop fn timeout delay hd elapsed hstop] at ht
    simp at ht
  | succ n ih =>
    intro elapsed hm t ht
    by_cases h : elapsed < timeout
    · cases hp : fn elapsed with
      | some r =>
        rw [run_from_hit fn timeout delay hd elapsed r h hp] at ht
        simp at ht
        exact ht ▸ h
      | none =>
        rw [run_from_miss fn timeout delay hd elapsed h hp] at ht
        simp at ht
        rcases ht with ht | ht
        · exact ht ▸ h
        · have hdec := @poll_measure_decreases timeout delay elapsed hd h
          exact ih (elapsed + delay) (by omega) t ht
    · rw [run_from_stop fn timeout delay hd elapsed h] at ht
      simp at ht

/-- If the probe never succeeds, the driver returns the `None` sentinel and
performs exactly one error increment. -/
lemma run_from_all_none {α : Type} (fn : ℚ → Option α) (timeout delay : ℚ)
    (hd : 0 < delay) (hfn : ∀ t, fn t = none) :
    ∀ (n : ℕ) (elapsed : ℚ), (⌈(timeout - elapsed) / delay⌉).toNat ≤ n →
      (run_with_timeout_from fn timeout delay hd elapsed).result = none ∧
      (run_with_timeout_from fn timeout delay hd elapsed).errors = 1 := by
  intro n
  induction n with
  | zero =>
    intro elapsed hm
    have hstop : ¬ elapsed < timeout := by
      intro hlt
      have := Int.ceil_pos.mpr (div_pos (show (0:ℚ) < timeout - elapsed by linarith) hd)
      omega
    rw [run_from_stop fn timeout delay hd elapsed hstop]
    exact ⟨rfl, rfl⟩
  | succ n ih =>
    intro elapsed hm
    by_cases h : elapsed < timeout
    · rw [run_from_miss fn timeout delay hd elapsed h (hfn elapsed)]
      have hdec := @poll_measure_decreases timeout delay elapsed hd h
      exact ih (elapsed + delay) (by omega)
    · rw [run_from_stop fn timeout delay hd elapsed h]
      exact ⟨rfl, rfl⟩

lemma run_with_timeout_all_none {α : Type} (fn : ℚ → Option α)
    (timeout delay : ℚ) (hd : 0 < delay) (hfn : ∀ t, fn t = none) :
    (run_with_timeout fn timeout delay hd).result = none ∧
    (run_with_timeout fn timeout delay hd).errors = 1 :=
  run_from_all_none fn timeout delay hd hfn _ 0 le_rfl

/-- Staleness check of `BackupManager.backup` (main.py:157-162):
`has_outdated_backup` starts `True` and is cleared when either the newest
backup (head of the list sorted by `$time` descending) is at least as recent
as `$modifiedDate`, or there is no backup and `$modifiedDate` equals
`$uploadedTime`. -/
def hasOutdatedBackup (backups : List Backup) (r : Resource) : Bool :=
  if (backups ≠ [] ∧ r.modifiedDate ≤ (backups.headI).time) ∨
      (backups = [] ∧ r.modifiedDate = r.uploadedTime) then
    false
  else
    true

/-- `BackupManager.create_project_backup` (main.py:218-230): a missing
response or a falsy `id` logs, increments the error counter once and yields
`None`; otherwise the response passes through. -/
def create_project_backup (env : Env) (resource_id : String) :
    Option CreateResp × ℕ :=
  match env.create_backup_response resource_id with
  | none => (none, 1)
  | some resp =>
    match resp.id with
    | none => (none, 1)
    | some s => if s = "" then (none, 1) else (some resp, 0)

/-- `BackupManager.is_project_backup_created` (main.py:232-252): the newest
job matching the id is returned once its status is terminal.  A server reply
that is empty (or an error string) yields `None`. -/
def is_project_backup_created (env : Env) (job_id : String) (t : ℚ) :
    Option Job :=
  match env.jobs job_id t with
  | [] => none
  | job :: _ =>
    if job.status = "completed" ∨ job.status = "failed" then some job
    else none

/-- `BackupManager.is_project_backup_valid` (main.py:254-275): reads the
`projectId` property of the job, queries backups created at or after the
workflow start (newest first) and accepts the head when its status is done
and its file size positive. -/
def is_project_backup_valid (env : Env) (job : Job) (start_time : ℚ) :
    Option Backup :=
  let resource_id := (job.properties.find? (fun p => p.1 == "projectId")).map Prod.snd
  match env.project_backups_since resource_id start_time with
  | [] => none
  | b :: _ =>
    if b.statusId = "_server.backup.status.done" ∧ b.fileSize > 0 then some b
    else none

/-- `BackupManager.is_library_backup_created` (main.py:318-339): polls the
automatic-format backups of the resource filtered on `$time ≥ action_time`
and returns the newest one once its `$time` has reached `action_time`. -/
def is_library_backup_created (env : Env) (resource_id : String)
    (action_time t : ℚ) : Option Backup :=
  match env.library_backups_at resource_id action_time t with
  | [] => none
  | b :: _ => if action_time ≤ b.time then some b else none

/-- `BackupManager.is_library_backup_valid` (main.py:341-361). -/
def is_library_backup_valid (env : Env) (resource_id backup_id : String)
    (start_time : ℚ) : Option Backup :=
  match env.library_backups_since resource_id start_time with
  | [] => none
  | b :: _ =>
    if b.id = backup_id ∧ b.statusId = "_server.backup.status.done" ∧
        b.fileSize > 0 then some b
    else none

/-- `BackupManager.get_backup_data` (main.py:376-425): the streamed download
either completes, or fails (mid-stream timeout or exception) returning
`None` after one error increment. -/
def get_backup_data (env : Env) (resource_id backup_id : String) :
    Option Unit × ℕ :=
  if env.download_ok resource_id backup_id then (some (), 0) else (none, 1)

/-- Upload request kind produced by `GoogleDriveAPI.prepare_upload`
(drive.py:98-104): a truthy `file_id` turns the upload into an update of
that file, otherwise a create. -/
inductive UploadMode where
  | update (fileId : String)
  | create
deriving DecidableEq

def prepare_upload_mode : Option String → UploadMode
  | none => .create
  | some fid => if fid = "" then .create else .update fid

/-- Deterministic destination file name of `BackupManager.transfer_backup`
(main.py:448): `resource['name'] + '.bim' + resource['type'] + str(version)`. -/
def backup_file_name (r : Resource) (version : String) : String :=
  r.name ++ ".bim" ++ typeStr r.rtype ++ version

/-- Name matching and create-vs-update decision of `transfer_backup`
(main.py:447-456): the first destination file whose name equals the
deterministic name provides the file id for an update. -/
def transfer_upload_mode (files : List DriveFile) (name : String) :
    UploadMode :=
  prepare_upload_mode ((files.find? (fun f => f.name == name)).map DriveFile.id)

/-- `BackupManager.transfer_backup` (main.py:427-463): download the backup
bytes (failure increments the counter once more and returns `None`), match
the destination file by name, then drive the chunked upload through
`run_with_timeout` with delay 0.05. -/
def transfer_backup (env : Env) (r : Resource) (backup_id : String) :
    Option Bool × ℕ :=
  let timeout := env.timeout_of r.size
  let (data, d1) := get_backup_data env r.id backup_id
  match data with
  | none => (none, d1 + 1)
  | some _ =>
    let name := backup_file_name r env.version
    let _mode := transfer_upload_mode env.drive_files name
    let poll := run_with_timeout env.upload_at timeout (1 / 20) (by norm_num)
    match poll.result with
    | some _ => (some true, d1 + poll.errors)
    | none => (some false, d1 + poll.errors)

/-- Project branch of `BackupManager.backup` (main.py:169-177): delete the
backups not newer than the modification date, request the backup, then poll
the job and validate.  `project_create_r['id']` is evaluated on the result
of `create_project_backup` even when that is `None`, in which case the
subscript raises `TypeError`. -/
def project_branch (env : Env) (r : Resource) (timeout start_time : ℚ)
    (backups : List Backup) :
    Except PyErr (Option Backup) × ℕ × List Effect :=
  let dels := (backups.filter (fun b => b.time ≤ r.modifiedDate)).map
    (fun b => Effect.deleteBackup r.id b.id)
  let (resp, d1) := create_project_backup env r.id
  match resp with
  | none => (.error .typeError, d1, dels ++ [Effect.createBackup r.id])
  | some cr =>
    let jid := cr.id.getD ""
    let poll := run_with_timeout (is_project_backup_created env jid) timeout 1 one_pos
    match poll.result with
    | none => (.ok none, d1 + poll.errors, dels ++ [Effect.createBackup r.id])
    | some job =>
      (.ok (is_project_backup_valid env job start_time), d1 + poll.errors,
        dels ++ [Effect.createBackup r.id])

/-- Library branch of `BackupManager.backup` (main.py:179-184): insert the
temporary schedule (`invoke_library_backup`), poll for the scheduler-made
backup, delete the schedules of the resource unconditionally, and validate
the polled backup when one was found. -/
def library_branch (env : Env) (r : Resource) (timeout start_time : ℚ) :
    Option Backup × ℕ × List Effect :=
  let poll := run_with_timeout (is_library_backup_created env r.id start_time)
    timeout 1 one_pos
  let cleanup := (env.backup_schedules r.id).map Effect.deleteSchedule
  let backup_new :=
    match poll.result with
    | some b => is_library_backup_valid env r.id b.id start_time
    | none => none
  (backup_new, poll.errors, Effect.insertSchedule r.id :: cleanup)

/-- Outcome of one iteration of the loop in `BackupManager.backup`. -/
structure StepOut where
  crash : Option PyErr
  dispatched : Bool
  uploaded : Bool
  errors : ℕ
  trace : List Effect
deriving DecidableEq

/-- One iteration of the loop of `BackupManager.backup` (main.py:148-195):
delete the resource's schedules, evaluate staleness, dispatch the matching
workflow, and on a validated backup run the transfer; `uploaded` records
whether `backups_created` was incremented. -/
def process_resource (env : Env) (r : Resource) : StepOut :=
  let cleanup := (env.backup_schedules r.id).map Effect.deleteSchedule
  let backups := env.resource_backups r.id
  if hasOutdatedBackup backups r then
    let timeout := env.timeout_of r.size
    let start_time := env.now
    let (res, d, tr) :=
      match r.rtype with
      | .project => project_branch env r timeout start_time backups
      | .library =>
        let lb := library_branch env r timeout start_time
        (Except.ok lb.1, lb.2.1, lb.2.2)
    match res with
    | .error e => ⟨some e, true, false, d, cleanup ++ tr⟩
    | .ok none => ⟨none, true, false, d, cleanup ++ tr⟩
    | .ok (some b) =>
      let (up, d2) := transfer_backup env r b.id
      match up with
      | some true =>
        ⟨none, true, true, d + d2, cleanup ++ tr ++ [Effect.transferred r.id]⟩
      | some false => ⟨none, true, false, d + d2, cleanup ++ tr⟩
      | none => ⟨none, true, false, d + d2, cleanup ++ tr⟩
  else
    ⟨none, false, false, 0, cleanup⟩

/-- The run report of `BackupManager.__init__` (main.py:87-91), restricted
to the counters (`endtime` is a wall-clock stamp). -/
structure RunState where
  backups : ℕ
  errors : ℕ
deriving DecidableEq

def init_report : RunState := ⟨0, 0⟩

/-- Result of the orchestrator loop: final report counters, the uncaught
exception if one aborted the loop, and the ids of the resources whose
iteration was entered. -/
structure RunOut where
  state : RunState
  crash : Option PyErr
  processed : List String
deriving DecidableEq

/-- The loop of `BackupManager.backup` over the resource list: a crash in
one iteration propagates (the remaining resources are not processed), any
other outcome lets the loop continue. -/
def backup_loop (env : Env) : List Resource → RunState → RunOut
  | [], s => ⟨s, none, []⟩
  | r :: rest, s =>
    let out := process_resource env r
    let s' : RunState :=
      ⟨s.backups + (if out.uploaded then 1 else 0), s.errors + out.errors⟩
    match out.crash with
    | some e => ⟨s', some e, [r.id]⟩
    | none =>
      let next := backup_loop env rest s'
      ⟨next.state, next.crash, r.id :: next.processed⟩

/-- `BackupManager.backup` (main.py:135-198): an empty resource listing
increments the error counter and returns, otherwise the loop runs from the
freshly initialized report. -/
def backup_run (env : Env) (resources : List Resource) : RunOut :=
  match resources with
  | [] => ⟨⟨init_report.backups, init_report.errors + 1⟩, none, []⟩
  | _ => backup_loop env resources init_report

/-- JSON-like values, to model the payload dictionaries sent by the
BIMcloud client verbatim. -/
inductive JVal where
  | str (s : String)
  | num (q : ℚ)
  | jbool (b : Bool)
  | obj (fields : List (String × JVal))

/-- `BIMcloudAPI.insert_resource_backup_schedule` (bimcloud.py:280-301).
The first `schedule` dict (carrying `id = backupType + targetResourceId`,
`$hidden`, `$visibility`) is immediately overwritten by the
`locals()`-comprehension, which keeps every local except `self` — that is,
the ten parameters plus the previous `schedule` dict itself, which survives
only as a nested value under the stray key `schedule`. -/
def insert_resource_backup_schedule (targetResourceId backupType : String)
    (enabled : Bool) (maxBackupCount repeatInterval repeatCount : ℚ)
    (startTime endTime : ℚ) (type : String) (revision : ℚ) :
    List (String × JVal) :=
  let schedule0 : List (String × JVal) :=
    [("id", .str (backupType ++ targetResourceId)),
     ("$hidden", .jbool false),
     ("$visibility", .str "full")]
  [("targetResourceId", .str targetResourceId),
   ("backupType", .str backupType),
   ("enabled", .jbool enabled),
   ("maxBackupCount", .num maxBackupCount),
   ("repeatInterval", .num repeatInterval),
   ("repeatCount", .num repeatCount),
   ("startTime", .num startTime),
   ("endTime", .num endTime),
   ("type", .str type),
   ("revision", .num revision),
   ("schedule", .obj schedule0)]

/-- `BackupManager.invoke_library_backup` (main.py:291-316) as called from
`backup` (main.py:180) with its default `offset = 10` and `interval = 3600`:
backup type `bimlibrary`, `maxBackupCount = 1`, `repeatInterval = 3600`
(hardcoded literal), `startTime = action_time + offset - interval`; the
remaining schedule fields take the client's Python defaults. -/
def invoke_library_backup (resource_id : String) (action_time : ℚ) :
    List (String × JVal) :=
  insert_resource_backup_schedule resource_id "bimlibrary" true 1 3600 0
    (action_time + 10 - 3600) 0 "resourceBackupSchedule" 0

open scoped Classical in
/-- Python's `round(x, 0)`: round to the nearest integer, ties to the even
integer. -/
noncomputable def pyRound (x : ℝ) : ℤ :=
  if x - ⌊x⌋ < 1 / 2 then ⌊x⌋
  else if 1 / 2 < x - ⌊x⌋ then ⌊x⌋ + 1
  else if 2 ∣ ⌊x⌋ then ⌊x⌋ else ⌊x⌋ + 1

/-- `BackupManager.get_timeout_from_filesize` (main.py:93-108):
`b + round(f * (size/div ** e), 0)`.  By Python precedence `**` binds
tighter than `/`, so the divisor alone is exponentiated. -/
noncomputable def get_timeout_from_filesize (size b f e div : ℝ) : ℝ :=
  b + (pyRound (f * (size / div ^ e)) : ℝ)

/-- Modelled from the spec: the estimator contract
`base + scale * (sizeBytes / divisor) ^ exponent` with the rounding in the
same position as the code applies it — the size is first divided by the
divisor and the quotient is raised to the exponent.  Stated for comparison
with `get_timeout_from_filesize`. -/
noncomputable def timeout_estimate_spec (size b f e div : ℝ) : ℝ :=
  b + (pyRound (f * (size / div) ^ e) : ℝ)

lemma pyRound_intCast (n : ℤ) : pyRound (n : ℝ) = n := by
  unfold pyRound
  rw [Int.floor_intCast]
  have h : (n : ℝ) - n < 1 / 2 := by norm_num
  rw [if_pos h]

lemma hasOutdatedBackup_eq_false_iff (backups : List Backup) (r : Resource) :
    hasOutdatedBackup backups r = false ↔
      ((backups ≠ [] ∧ r.modifiedDate ≤ backups.headI.time) ∨
       (backups = [] ∧ r.modifiedDate = r.uploadedTime)) := by
  unfold hasOutdatedBackup
  split <;> simp_all

lemma process_resource_dispatched (env : Env) (r : Resource) :
    (process_resource env r).dispatched =
      hasOutdatedBackup (env.resource_backups r.id) r := by
  cases hOB : hasOutdatedBackup (env.resource_backups r.id) r with
  | false => simp [process_resource, hOB]
  | true =>
    simp only [process_resource, hOB, if_true]
    split
    · rfl
    · rfl
    · split <;> rfl

/-- Claim C1: with the backup list sorted newest-first, the resource is not
stale exactly when the latest backup's creation time is at least the
last-modified time, or there is no backup and the last-modified time equals
the upload time; in every other case the workflow is dispatched. -/
theorem c1_staleness_rule (backups : List Backup) (r : Resource)
    (hsorted : List.Sorted (fun a b => b.time ≤ a.time) backups) :
    (hasOutdatedBackup backups r = false ↔
      ((∃ b ∈ backups, (∀ b' ∈ backups, b'.time ≤ b.time) ∧
          r.modifiedDate ≤ b.time) ∨
       (backups = [] ∧ r.modifiedDate = r.uploadedTime))) ∧
    (∀ env : Env, env.resource_backups r.id = backups →
       (process_resource env r).dispatched = hasOutdatedBackup backups r) := by
  constructor
  · rw [hasOutdatedBackup_eq_false_iff]
    cases backups with
    | nil => simp
    | cons b bs =>
      have hmax : ∀ b' ∈ b :: bs, b'.time ≤ b.time := by
        intro b' hb'
        rcases List.mem_cons.mp hb' with h | h
        · exact h ▸ le_refl _
        · exact List.rel_of_sorted_cons hsorted b' h
      constructor
      · rintro (⟨_, hle⟩ | ⟨hnil, _⟩)
        · exact Or.inl ⟨b, List.mem_cons_self b bs, hmax, by simpa using hle⟩
        · exact absurd hnil (List.cons_ne_nil b bs)
      · rintro (⟨b', hb', _, hle⟩ | ⟨hnil, _⟩)
        · exact Or.inl ⟨List.cons_ne_nil b bs,
            by simpa using le_trans hle (hmax b' hb')⟩
        · exact absurd hnil (List.cons_ne_nil b bs)
  · intro env henv
    subst henv
    exact process_resource_dispatched env r

def backups_w1 : List Backup := [⟨"b1", 300, "_server.backup.status.done", 5⟩]

def r_w1 : Resource := ⟨"r1", .project, "R", 10, 250, 100⟩

theorem c1_staleness_rule_witness :
    List.Sorted (fun a b : Backup => b.time ≤ a.time) backups_w1 ∧
    ((hasOutdatedBackup backups_w1 r_w1 = false ↔
      ((∃ b ∈ backups_w1, (∀ b' ∈ backups_w1, b'.time ≤ b.time) ∧
          r_w1.modifiedDate ≤ b.time) ∨
       (backups_w1 = [] ∧ r_w1.modifiedDate = r_w1.uploadedTime))) ∧
     (∀ env : Env, env.resource_backups r_w1.id = backups_w1 →
        (process_resource env r_w1).dispatched =
          hasOutdatedBackup backups_w1 r_w1)) :=
  ⟨List.sorted_singleton _,
    c1_staleness_rule backups_w1 r_w1 (List.sorted_singleton _)⟩

/-- Claim C2, counterexample: at `size = 100`, `b = 0`, `f = 1`, `e = 2`,
`div = 1` the code returns `0 + round(1 * (100 / 1^2)) = 100`, while the
spec formula `base + scale * (size/divisor)^exponent` gives `10000`. -/
theorem c2_spec_formula_cex :
    get_timeout_from_filesize 100 0 1 2 1 ≠ timeout_estimate_spec 100 0 1 2 1 := by
  have h1 : get_timeout_from_filesize 100 0 1 2 1 = 100 := by
    unfold get_timeout_from_filesize
    have ha : (1 : ℝ) * ((100 : ℝ) / (1 : ℝ) ^ (2 : ℝ)) = ((100 : ℤ) : ℝ) := by
      rw [Real.one_rpow]
      norm_num
    rw [ha, pyRound_intCast]
    norm_num
  have h2 : timeout_estimate_spec 100 0 1 2 1 = 10000 := by
    unfold timeout_estimate_spec
    have ha : (1 : ℝ) * (((100 : ℝ) / 1) ^ (2 : ℝ)) = ((10000 : ℤ) : ℝ) := by
      rw [show ((2 : ℝ)) = ((2 : ℕ) : ℝ) by norm_num, Real.rpow_natCast]
      norm_num
    rw [ha, pyRound_intCast]
    norm_num
  rw [h1, h2]
  norm_num

/-- Claim C2, amended: for every size and parameters, the estimator returns
`base + round(scale * size / divisor ^ exponent)` — by Python precedence the
divisor alone is raised to the exponent and the size is divided by that
power; the rounding applies to the scaled quotient, then the base is added. -/
theorem c2_amended_formula (size b f e d : ℝ) :
    get_timeout_from_filesize size b f e d =
      b + (pyRound (f * size / d ^ e) : ℝ) := by
  unfold get_timeout_from_filesize
  rw [mul_div_assoc]

/-- Claim C3: the polling driver returns the probe's result immediately when
the first probe succeeds — that probe is the only one and no sleep occurs —
and no probe invocation ever starts at or after the moment the elapsed time
reaches the deadline. -/
theorem c3_polling_driver {α : Type} (timeout delay : ℚ) (hd : 0 < delay) :
    (∀ (fn : ℚ → Option α) (x : α), 0 < timeout → fn 0 = some x →
      run_with_timeout fn timeout delay hd = ⟨some x, [0], 0, 0⟩) ∧
    (∀ (fn : ℚ → Option α) (t : ℚ),
      t ∈ (run_with_timeout fn timeout delay hd).probes → t < timeout) := by
  constructor
  · intro fn x ht hp
    exact run_from_hit fn timeout delay hd 0 x ht hp
  · intro fn t ht
    exact run_from_probes_lt fn timeout delay hd _ 0 le_rfl t ht

theorem c3_polling_driver_witness :
    ((0 : ℚ) < 1) ∧ ((0 : ℚ) < 5) ∧
    ((fun _ : ℚ => some (3 : ℕ)) 0 = some 3) ∧
    run_with_timeout (fun _ : ℚ => some (3 : ℕ)) 5 1 one_pos =
      ⟨some 3, [0], 0, 0⟩ ∧
    (∀ t : ℚ,
      t ∈ (run_with_timeout (fun _ : ℚ => some (3 : ℕ)) 5 1 one_pos).probes →
        t < 5) :=
  ⟨one_pos, by norm_num, rfl,
    (c3_polling_driver 5 1 one_pos).1 _ 3 (by norm_num) rfl,
    fun t ht => (c3_polling_driver 5 1 one_pos).2 _ t ht⟩

/-- Claim C4: when the deadline elapses with no positive probe result, the
driver returns the `None` sentinel (no exception) and increments the error
counter exactly once; in the orchestrator a stale project whose job poll
times out yields no crash, no upload, one error, and the loop still
processes the remaining resources. -/
theorem c4_timeout_benign :
    (∀ (fn : ℚ → Option Backup) (timeout delay : ℚ) (hd : 0 < delay),
      (∀ t, fn t = none) →
      (run_with_timeout fn timeout delay hd).result = none ∧
      (run_with_timeout fn timeout delay hd).errors = 1) ∧
    (∀ (env : Env) (r : Resource) (jid : String),
      r.rtype = .project →
      hasOutdatedBackup (env.resource_backups r.id) r = true →
      env.create_backup_response r.id = some ⟨some jid⟩ →
      jid ≠ "" →
      (∀ t, is_project_backup_created env jid t = none) →
      (process_resource env r).crash = none ∧
      (process_resource env r).uploaded = false ∧
      (process_resource env r).errors = 1 ∧
      (∀ (rest : List Resource) (s : RunState),
        (backup_loop env (r :: rest) s).processed =
          r.id :: (backup_loop env rest ⟨s.backups, s.errors + 1⟩).processed)) := by
  constructor
  · intro fn timeout delay hd hfn
    exact run_with_timeout_all_none fn timeout delay hd hfn
  · intro env r jid hty hst hcr hjid hprobe
    have hcreate : create_project_backup env r.id = (some ⟨some jid⟩, 0) := by
      simp [create_project_backup, hcr, hjid]
    have hpoll := run_with_timeout_all_none (is_project_backup_created env jid)
      (env.timeout_of r.size) 1 one_pos hprobe
    have hpb : project_branch env r (env.timeout_of r.size) env.now
        (env.resource_backups r.id) =
        (.ok none, 1,
          ((env.resource_backups r.id).filter
              (fun b => b.time ≤ r.modifiedDate)).map
            (fun b => Effect.deleteBackup r.id b.id) ++
          [Effect.createBackup r.id]) := by
      simp [project_branch, hcreate, hpoll.1, hpoll.2]
    have hstep : process_resource env r =
        ⟨none, true, false, 1,
          (env.backup_schedules r.id).map Effect.deleteSchedule ++
          (((env.resource_backups r.id).filter
              (fun b => b.time ≤ r.modifiedDate)).map
            (fun b => Effect.deleteBackup r.id b.id) ++
          [Effect.createBackup r.id])⟩ := by
      simp [process_resource, hst, hty, hpb]
    refine ⟨by rw [hstep], by rw [hstep], by rw [hstep], ?_⟩
    intro rest s
    simp [backup_loop, hstep]

def env4 : Env :=
  ⟨0, fun _ => 2, fun _ => [], fun _ => [], fun _ => some ⟨some "j1"⟩,
    fun _ _ => [], fun _ _ => [], fun _ _ _ => [], fun _ _ => [],
    fun _ _ => false, [], "", fun _ => none⟩

def r4 : Resource := ⟨"p4", .project, "P4", 10, 200, 100⟩

theorem c4_timeout_benign_witness :
    ((0 : ℚ) < 1) ∧
    ((run_with_timeout (fun _ : ℚ => (none : Option Backup)) 2 1 one_pos).result
        = none ∧
      (run_with_timeout (fun _ : ℚ => (none : Option Backup)) 2 1 one_pos).errors
        = 1) ∧
    (r4.rtype = .project) ∧
    (hasOutdatedBackup (env4.resource_backups r4.id) r4 = true) ∧
    (env4.create_backup_response r4.id = some ⟨some "j1"⟩) ∧
    ("j1" ≠ "") ∧
    (∀ t, is_project_backup_created env4 "j1" t = none) ∧
    ((process_resource env4 r4).crash = none ∧
      (process_resource env4 r4).uploaded = false ∧
      (process_resource env4 r4).errors = 1 ∧
      (∀ (rest : List Resource) (s : RunState),
        (backup_loop env4 (r4 :: rest) s).processed =
          r4.id :: (backup_loop env4 rest ⟨s.backups, s.errors + 1⟩).processed)) :=
  ⟨one_pos,
    c4_timeout_benign.1 _ 2 1 one_pos (fun _ => rfl),
    rfl, by decide, rfl, by decide, fun _ => rfl,
    c4_timeout_benign.2 env4 r4 "j1" rfl (by decide) rfl (by decide)
      (fun _ => rfl)⟩

def env5 : Env :=
  ⟨1000, fun _ => 60, fun _ => [], fun _ => [], fun _ => none,
    fun _ _ => [], fun _ _ => [], fun _ _ _ => [], fun _ _ => [],
    fun _ _ => false, [], "", fun _ => none⟩

def rP5 : Resource := ⟨"p1", .project, "P", 10, 200, 100⟩

def rQ5 : Resource := ⟨"p2", .project, "Q", 10, 200, 100⟩

/-- Claim C5: when the backup-creation request returns no job id,
`create_project_backup` logs and increments the error counter — but the
caller immediately subscripts the `None` result (`project_create_r['id']`,
main.py:175), so the iteration raises `TypeError` and the loop aborts:
the remaining resources are NOT processed. -/
theorem c5_missing_job_id_aborts_run :
    (backup_loop env5 [rP5, rQ5] init_report).crash = some PyErr.typeError ∧
    (backup_loop env5 [rP5, rQ5] init_report).state.errors = 1 ∧
    (backup_loop env5 [rP5, rQ5] init_report).processed = [rP5.id] ∧
    rQ5.id ∉ (backup_loop env5 [rP5, rQ5] init_report).processed := by
  refine ⟨rfl, rfl, rfl, ?_⟩
  decide

/-- Common shape of a stale-project iteration whose job poll terminates at
the very first probe with a job that the validation query then rejects. -/
lemma process_project_terminal_job (env : Env) (r : Resource) (jid : String)
    (job : Job)
    (hty : r.rtype = .project)
    (hst : hasOutdatedBackup (env.resource_backups r.id) r = true)
    (hcr : env.create_backup_response r.id = some ⟨some jid⟩)
    (hjid : jid ≠ "")
    (h0 : 0 < env.timeout_of r.size)
    (hjob : is_project_backup_created env jid 0 = some job)
    (hval : is_project_backup_valid env job env.now = none) :
    process_resource env r =
      ⟨none, true, false, 0,
        (env.backup_schedules r.id).map Effect.deleteSchedule ++
        (((env.resource_backups r.id).filter
            (fun b => b.time ≤ r.modifiedDate)).map
          (fun b => Effect.deleteBackup r.id b.id) ++
        [Effect.createBackup r.id])⟩ := by
  have hcreate : create_project_backup env r.id = (some ⟨some jid⟩, 0) := by
    simp [create_project_backup, hcr, hjid]
  have hpoll : run_with_timeout (is_project_backup_created env jid)
      (env.timeout_of r.size) 1 one_pos = ⟨some job, [0], 0, 0⟩ :=
    run_from_hit _ _ _ _ 0 job h0 hjob
  have hpb : project_branch env r (env.timeout_of r.size) env.now
      (env.resource_backups r.id) =
      (.ok none, 0,
        ((env.resource_backups r.id).filter
            (fun b => b.time ≤ r.modifiedDate)).map
          (fun b => Effect.deleteBackup r.id b.id) ++
        [Effect.createBackup r.id]) := by
    simp [project_branch, hcreate, hpoll, hval]
  simp [process_resource, hst, hty, hpb]

def jobF : Job := ⟨"j1", "failed", [("projectId", "p6")]⟩

def env6 : Env :=
  ⟨1000, fun _ => 60, fun _ => [], fun _ => [], fun _ => some ⟨some "j1"⟩,
    fun _ _ => [jobF], fun _ _ => [], fun _ _ _ => [], fun _ _ => [],
    fun _ _ => false, [], "", fun _ => none⟩

def r6 : Resource := ⟨"p6", .project, "P6", 10, 200, 100⟩

/-- Claim C6, counterexample: a stale project whose backup job polls back
with status `failed` (and whose validation query finds nothing) is skipped
with NO error-counter increment — the claim asserts an increment. -/
theorem c6_failed_job_no_error_cex :
    (process_resource env6 r6).errors = 0 ∧
    (process_resource env6 r6).uploaded = false ∧
    (process_resource env6 r6).crash = none := by
  have h := process_project_terminal_job env6 r6 "j1" jobF rfl (by decide)
    rfl (by decide) (by decide) rfl rfl
  exact ⟨by rw [h], by rw [h], by rw [h]⟩

/-- Claim C6, amended: when the polled project-backup job terminates with
status `failed` and the post-start validation query yields no acceptable
backup, no candidate is validated, the resource is skipped for transfer,
the loop continues with the remaining resources, and the error counter is
NOT incremented — the failed-status path is silently skipped. -/
theorem c6_failed_job_silent_skip (env : Env) (r : Resource) (jid : String)
    (job : Job)
    (hty : r.rtype = .project)
    (hst : hasOutdatedBackup (env.resource_backups r.id) r = true)
    (hcr : env.create_backup_response r.id = some ⟨some jid⟩)
    (hjid : jid ≠ "")
    (h0 : 0 < env.timeout_of r.size)
    (hjob : is_project_backup_created env jid 0 = some job)
    (hfail : job.status = "failed")
    (hval : is_project_backup_valid env job env.now = none) :
    (process_resource env r).uploaded = false ∧
    (process_resource env r).errors = 0 ∧
    (process_resource env r).crash = none ∧
    (∀ (rest : List Resource) (s : RunState),
      (backup_loop env (r :: rest) s).processed =
        r.id :: (backup_loop env rest s).processed) := by
  have h := process_project_terminal_job env r jid job hty hst hcr hjid h0
    hjob hval
  refine ⟨by rw [h], by rw [h], by rw [h], ?_⟩
  intro rest s
  obtain ⟨sb, se⟩ := s
  simp [backup_loop, h]

theorem c6_failed_job_silent_skip_witness :
    (r6.rtype = .project) ∧
    (hasOutdatedBackup (env6.resource_backups r6.id) r6 = true) ∧
    (env6.create_backup_response r6.id = some ⟨some "j1"⟩) ∧
    ("j1" ≠ "") ∧
    (0 < env6.timeout_of r6.size) ∧
    (is_project_backup_created env6 "j1" 0 = some jobF) ∧
    (jobF.status = "failed") ∧
    (is_project_backup_valid env6 jobF env6.now = none) ∧
    ((process_resource env6 r6).uploaded = false ∧
      (process_resource env6 r6).errors = 0 ∧
      (process_resource env6 r6).crash = none ∧
      (∀ (rest : List Resource) (s : RunState),
        (backup_loop env6 (r6 :: rest) s).processed =
          r6.id :: (backup_loop env6 rest s).processed)) :=
  ⟨rfl, by decide, rfl, by decide, by decide, rfl, rfl, rfl,
    c6_failed_job_silent_skip env6 r6 "j1" jobF rfl (by decide) rfl
      (by decide) (by decide) rfl rfl rfl⟩

/-- The ordered side effects of the library branch do not depend on the poll
outcome: the schedule insertion is followed — after the poll — by the
deletion of the resource's schedules. -/
lemma library_branch_trace (env : Env) (r : Resource) (timeout start_time : ℚ) :
    (library_branch env r timeout start_time).2.2 =
      Effect.insertSchedule r.id ::
        (env.backup_schedules r.id).map Effect.deleteSchedule := rfl

/-- Claim C7: in the library workflow the temporary schedule inserted for
the resource is followed, after the polling step and regardless of its
outcome, by the deletion of the resource's schedules; no iteration exit
skips that cleanup. -/
theorem c7_schedule_cleanup (env : Env) (r : Resource)
    (hty : r.rtype = .library)
    (hst : hasOutdatedBackup (env.resource_backups r.id) r = true) :
    (process_resource env r).crash = none ∧
    ∃ tail, (process_resource env r).trace =
      ((env.backup_schedules r.id).map Effect.deleteSchedule) ++
        (Effect.insertSchedule r.id ::
          (((env.backup_schedules r.id).map Effect.deleteSchedule) ++ tail)) := by
  simp only [process_resource, hst, hty, if_true]
  cases hv : (library_branch env r (env.timeout_of r.size) env.now).1 with
  | none =>
    simp [hv, library_branch_trace]
  | some b =>
    cases hup : (transfer_backup env r b.id).1 with
    | none => simp [hv, hup, library_branch_trace]
    | some ok =>
      cases ok with
      | false => simp [hv, hup, library_branch_trace]
      | true =>
        refine ⟨by simp [hv, hup], ⟨[Effect.transferred r.id], ?_⟩⟩
        simp [hv, hup, library_branch_trace]

def env7 : Env :=
  ⟨1000, fun _ => 2, fun _ => [], fun _ => ["s1"], fun _ => none,
    fun _ _ => [], fun _ _ => [], fun _ _ _ => [], fun _ _ => [],
    fun _ _ => false, [], "", fun _ => none⟩

def r7 : Resource := ⟨"l7", .library, "L7", 10, 200, 100⟩

theorem c7_schedule_cleanup_witness :
    (r7.rtype = .library) ∧
    (hasOutdatedBackup (env7.resource_backups r7.id) r7 = true) ∧
    ((process_resource env7 r7).crash = none ∧
      ∃ tail, (process_resource env7 r7).trace =
        ((env7.backup_schedules r7.id).map Effect.deleteSchedule) ++
          (Effect.insertSchedule r7.id ::
            (((env7.backup_schedules r7.id).map Effect.deleteSchedule) ++
              tail))) :=
  ⟨rfl, by decide, c7_schedule_cleanup env7 r7 rfl (by decide)⟩

/-- Claim C8: evaluating the inserted schedule payload for resource `r1`
at action time 5000.  The numeric fields match the claim
(`maxBackupCount = 1`, `repeatInterval = 3600`,
`startTime = 5000 + 10 - 3600`), but the payload carries NO top-level
identifier: the `locals()` overwrite in
`insert_resource_backup_schedule` buries the intended
`backupType + resourceId` id inside the stray nested `schedule` field. -/
theorem c8_schedule_payload_shape :
    ((invoke_library_backup "r1" 5000).lookup "id" = none) ∧
    ((invoke_library_backup "r1" 5000).lookup "maxBackupCount" =
      some (.num 1)) ∧
    ((invoke_library_backup "r1" 5000).lookup "repeatInterval" =
      some (.num 3600)) ∧
    ((invoke_library_backup "r1" 5000).lookup "startTime" =
      some (.num (5000 + 10 - 3600))) ∧
    ((invoke_library_backup "r1" 5000).lookup "startTime" =
      some (.num 1410)) ∧
    ((invoke_library_backup "r1" 5000).lookup "schedule" =
      some (.obj [("id", .str "bimlibraryr1"), ("$hidden", .jbool false),
        ("$visibility", .str "full")])) := by
  refine ⟨rfl, rfl, rfl, rfl, ?_, rfl⟩
  rw [show (1410 : ℚ) = 5000 + 10 - 3600 by norm_num]
  rfl

/-- Claim C9: destination files are matched by exact name equality against
the deterministic name `resourceName + '.bim' + type + version`; a match
turns the upload into an update of the matched file's id, no match into a
create.  Drive file ids are assumed nonempty (a Python-falsy empty id would
fall back to a create). -/
theorem c9_transfer_name_matching (files : List DriveFile) (r : Resource)
    (version : String)
    (hids : ∀ f ∈ files, f.id ≠ "") :
    ((∀ f ∈ files, f.name ≠ backup_file_name r version) →
      transfer_upload_mode files (backup_file_name r version) = .create) ∧
    ((∃ f ∈ files, f.name = backup_file_name r version) →
      ∃ f ∈ files, f.name = backup_file_name r version ∧
        transfer_upload_mode files (backup_file_name r version) =
          .update f.id) := by
  constructor
  · intro hnone
    have hfind : files.find? (fun f => f.name == backup_file_name r version)
        = none := by
      rw [List.find?_eq_none]
      intro f hf
      simp [hnone f hf]
    simp [transfer_upload_mode, hfind, prepare_upload_mode]
  · intro hex
    have hsome : (files.find?
        (fun f => f.name == backup_file_name r version)).isSome := by
      rw [List.find?_isSome]
      obtain ⟨f, hf, hn⟩ := hex
      exact ⟨f, hf, by simp [hn]⟩
    obtain ⟨f₀, hf₀⟩ := Option.isSome_iff_exists.mp hsome
    have hmem := List.mem_of_find?_eq_some hf₀
    have hname : f₀.name = backup_file_name r version := by
      simpa using List.find?_some hf₀
    refine ⟨f₀, hmem, hname, ?_⟩
    simp [transfer_upload_mode, hf₀, prepare_upload_mode, hids f₀ hmem]

def files9 : List DriveFile := [⟨"fid1", "A.bimproject23"⟩]

def r9 : Resource := ⟨"r9", .project, "A", 10, 200, 100⟩

theorem c9_transfer_name_matching_witness :
    (∀ f ∈ files9, f.id ≠ "") ∧
    (((∀ f ∈ files9, f.name ≠ backup_file_name r9 "23") →
        transfer_upload_mode files9 (backup_file_name r9 "23") = .create) ∧
      ((∃ f ∈ files9, f.name = backup_file_name r9 "23") →
        ∃ f ∈ files9, f.name = backup_file_name r9 "23" ∧
          transfer_upload_mode files9 (backup_file_name r9 "23") =
            .update f.id)) :=
  ⟨by decide, c9_transfer_name_matching files9 r9 "23" (by decide)⟩

/-- The error counter accumulated by the orchestrator loop is additive in
its starting value: the loop only ever adds iteration deltas to it. -/
lemma backup_loop_errors_add (env : Env) :
    ∀ (rs : List Resource) (b e : ℕ),
      (backup_loop env rs ⟨b, e⟩).state.errors =
        e + (backup_loop env rs ⟨b, 0⟩).state.errors := by
  intro rs
  induction rs with
  | nil => intro b e; simp [backup_loop]
  | cons r rest ih =>
    intro b e
    simp only [backup_loop]
    cases hc : (process_resource env r).crash with
    | some err => simp [hc]
    | none =>
      simp only [hc]
      rw [ih, ih (b + if (process_resource env r).uploaded then 1 else 0)
        (0 + (process_resource env r).errors)]
      omega

/-- Claim C10: the run report's error counter starts at 0 when the manager
is created, never decreases across the orchestrator loop, and each
modification site adds at most one. -/
theorem c10_error_counter_monotone :
    init_report.errors = 0 ∧
    (∀ (env : Env) (rs : List Resource) (s : RunState),
      s.errors ≤ (backup_loop env rs s).state.errors) ∧
    (∀ (env : Env) (rs : List Resource) (b e : ℕ),
      (backup_loop env rs ⟨b, e⟩).state.errors =
        e + (backup_loop env rs ⟨b, 0⟩).state.errors) ∧
    (∀ (env : Env) (rid : String), (create_project_backup env rid).2 ≤ 1) ∧
    (∀ (env : Env) (rid bid : String),
      (get_backup_data env rid bid).2 ≤ 1) := by
  refine ⟨rfl, ?_, fun env rs b e => backup_loop_errors_add env rs b e,
    ?_, ?_⟩
  · intro env rs s
    obtain ⟨b, e⟩ := s
    rw [backup_loop_errors_add]
    exact Nat.le_add_right e _
  · intro env rid
    unfold create_project_backup
    split
    · simp
    · split
      · simp
      · split <;> simp
  · intro env rid bid
    unfold get_backup_data
    split <;> simp
